import Mathlib

/-!
Verification development for the Zscaler connector (`zscaler_connector.py`).

The Python source is shallowly embedded: pure fragments become Lean
functions, Python exceptions become `Except` values, the HTTP layer is
abstracted by explicit oracle parameters (whether a call succeeded, the
status code and relevant JSON fields of the response), and Python `set`
values become `Finset String` (their iteration order is unspecified, and
every property of interest here is order-insensitive).  Python string
primitives (`split`, `strip`, `lower`, `in`, slicing) are modelled by
structurally recursive functions on character lists so that every
definition evaluates inside the kernel.
-/

namespace Zscaler

/-! Helpers modelling Python string primitives. -/

/-- Auxiliary for Python `s.split()`: walk the characters, `cur` holding
the reversed current token; whitespace ends a token, empty tokens are
dropped. -/
def wsplitAux : List Char → List Char → List (List Char)
  | [], cur => if cur = [] then [] else [cur.reverse]
  | c :: rest, cur =>
    if c.isWhitespace then
      (if cur = [] then wsplitAux rest [] else cur.reverse :: wsplitAux rest [])
    else wsplitAux rest (c :: cur)

/-- Python `s.split()` with no argument: split on runs of whitespace and
drop empty pieces. -/
def pySplitWs (s : String) : List String :=
  (wsplitAux s.data []).map (fun l => ⟨l⟩)

/-- Auxiliary for Python `s.split(sep)` with a one-character separator:
every separator ends a piece and empty pieces are kept. -/
def csplitAux (sep : Char) : List Char → List Char → List (List Char)
  | [], cur => [cur.reverse]
  | c :: rest, cur =>
    if c = sep then cur.reverse :: csplitAux sep rest []
    else csplitAux sep rest (c :: cur)

/-- Python `s.split(sep)` for a one-character separator `sep`. -/
def pySplitChar (sep : Char) (s : String) : List String :=
  (csplitAux sep s.data []).map (fun l => ⟨l⟩)

/-- Python `s.strip()`: remove leading and trailing whitespace. -/
def pyStrip (s : String) : String :=
  ⟨((s.data.dropWhile Char.isWhitespace).reverse.dropWhile Char.isWhitespace).reverse⟩

/-- Python `s.lower()` (ASCII case folding suffices for this source). -/
def pyLower (s : String) : String := ⟨s.data.map Char.toLower⟩

/-- Python `pat in s` (substring membership). -/
def hasSubAux (pat : List Char) : List Char → Bool
  | [] => pat.isEmpty
  | c :: rest => pat.isPrefixOf (c :: rest) || hasSubAux pat rest

/-- Python `pat in s` on strings. -/
def containsSub (s pat : String) : Bool := hasSubAux pat.data s.data

/-- Numeric value of a decimal digit character, Python `int(c)` for a
single digit `c`. -/
def charDigit (c : Char) : Nat := c.toNat - '0'.toNat

/-- Tail of Python `int(str)` digit parsing: remaining characters after the
first digit, allowing single underscores between digits (as Python does).
Returns `none` exactly when Python `int` raises `ValueError`. -/
def pyIntDigits : List Char → Nat → Option Nat
  | [], acc => some acc
  | '_' :: c :: rest, acc =>
    if c.isDigit then pyIntDigits rest (acc * 10 + charDigit c) else none
  | c :: rest, acc =>
    if c.isDigit then pyIntDigits rest (acc * 10 + charDigit c) else none

/-- Python `int(s)` on a whitespace-free token: optional sign, then a
nonempty digit string (single underscores allowed between digits).
`none` models `ValueError`. -/
def pyInt (s : String) : Option Int :=
  match s.data with
  | [] => none
  | '+' :: c :: rest =>
    if c.isDigit then (pyIntDigits rest (charDigit c)).map Int.ofNat else none
  | '-' :: c :: rest =>
    if c.isDigit then (pyIntDigits rest (charDigit c)).map (fun n => -(Int.ofNat n)) else none
  | c :: rest =>
    if c.isDigit then (pyIntDigits rest (charDigit c)).map Int.ofNat else none

/-- Decidable equality for `Except`, used to evaluate embedded results on
concrete inputs. -/
instance {ε α : Type} [DecidableEq ε] [DecidableEq α] : DecidableEq (Except ε α) :=
  fun x y =>
    match x, y with
    | .error a, .error b =>
      if h : a = b then isTrue (congrArg Except.error h)
      else isFalse (fun hc => h (Except.error.inj hc))
    | .error _, .ok _ => isFalse (fun hc => Except.noConfusion hc)
    | .ok _, .error _ => isFalse (fun hc => Except.noConfusion hc)
    | .ok a, .ok b =>
      if h : a = b then isTrue (congrArg Except.ok h)
      else isFalse (fun hc => h (Except.ok.inj hc))

/-- Python exceptions that can escape the retry-parsing code. -/
inductive PyExn
  | indexError
  | valueError
  deriving DecidableEq

/-- Embedding of `_parse_retry_time`.  The source is:
`parts = retry_time.split()`, then `parts[1].lower()` is compared with
`"seconds"` and `"minutes"`; on a match `int(parts[0])` (times 60 for
minutes) is returned, otherwise `None`.  `parts[1]` on a short list raises
`IndexError`; `int` on a non-integer token raises `ValueError`.  When
`(pySplitWs retry_time)[1]?` is `some`, the list has length at least 2, so
index 0 never takes the `getD` default. -/
def parse_retry_time (retry_time : String) : Except PyExn (Option Int) :=
  match (pySplitWs retry_time)[1]? with
  | none => .error .indexError
  | some u =>
    if pyLower u = "seconds" then
      match pyInt ((pySplitWs retry_time)[0]?.getD "") with
      | none => .error .valueError
      | some k => .ok (some k)
    else if pyLower u = "minutes" then
      match pyInt ((pySplitWs retry_time)[0]?.getD "") with
      | none => .error .valueError
      | some k => .ok (some (k * 60))
    else .ok none

/-- Value occupying the first slot of `_make_rest_call_helper`'s returned
pair.  It is a phantom status (a boolean) on every intended path, but one
branch of the 429 handler returns the raw `Retry-After` string instead. -/
inductive RetSlot
  | status (ok : Bool)
  | strVal (s : String)
  deriving DecidableEq

/-- The fields of `self._response` that the retry helper inspects:
`status_code`, and the `Retry-After` member of the parsed JSON body
(`none` models a body without that key, raising `KeyError` on lookup). -/
structure HelperResponse where
  status_code : Nat
  retryAfter : Option String
  deriving DecidableEq

/-- What one pass of `_make_rest_call_helper` does after `_make_rest_call`
returns: hand a value back to the caller, or sleep and repeat the
identical call. -/
inductive HelperStep
  | done (ret : RetSlot)
  | lockRetry
  | sleepRetry (seconds : Int)
  deriving DecidableEq

/-- Embedding of the post-call logic of `_make_rest_call_helper`.
`ret_ok` is the negation of `phantom.is_fail ret_val`; `resp` is
`self._response` (`none` when no request ever completed).  On 429 the code
reads `Retry-After` (a missing key is caught and the original `ret_val` is
returned), parses it (parse exceptions propagate), and when the parse
yields `None` or a negative wait the source executes
`return retry_time, response`, handing back the string itself. -/
def make_rest_call_helper_step (ret_ok : Bool) (resp : Option HelperResponse) :
    Except PyExn HelperStep :=
  if ret_ok then .ok (.done (.status true))
  else
    match resp with
    | none => .ok (.done (.status false))
    | some r =>
      if r.status_code = 409 then .ok .lockRetry
      else if r.status_code = 429 then
        match r.retryAfter with
        | none => .ok (.done (.status false))
        | some rt =>
          match parse_retry_time rt with
          | .error e => .error e
          | .ok none => .ok (.done (.strVal rt))
          | .ok (some w) =>
            if w < 0 then .ok (.done (.strVal rt)) else .ok (.sleepRetry w)
      else .ok (.done (.status false))

/-! Theorems for claims C4 and C10. -/

/-- C10: `_parse_retry_time` is partial at the 429 interface.  Inputs with
fewer than two whitespace-separated tokens raise `IndexError`; a
non-integer first token under a `seconds`/`minutes` unit raises
`ValueError`; a `None` result forces a second token whose lowercase form
is neither `seconds` nor `minutes`; and a 429 response whose `Retry-After`
value lacks a unit token crashes the retry helper with `IndexError`. -/
theorem c10_parse_retry_time_partiality :
    (∀ s : String, (pySplitWs s).length < 2 →
      parse_retry_time s = .error .indexError) ∧
    (∀ s t0 t1 : String, (pySplitWs s)[0]? = some t0 →
      (pySplitWs s)[1]? = some t1 → pyInt t0 = none →
      (pyLower t1 = "seconds" ∨ pyLower t1 = "minutes") →
      parse_retry_time s = .error .valueError) ∧
    (∀ s : String, parse_retry_time s = .ok none →
      ∃ t1, (pySplitWs s)[1]? = some t1 ∧
        pyLower t1 ≠ "seconds" ∧ pyLower t1 ≠ "minutes") ∧
    make_rest_call_helper_step false (some ⟨429, some "5"⟩) =
      .error .indexError := by
  refine ⟨?_, ?_, ?_, by decide⟩
  · intro s h
    have hnone : (pySplitWs s)[1]? = none := by
      rw [List.getElem?_eq_none_iff]
      omega
    unfold parse_retry_time
    rw [hnone]
  · intro s t0 t1 h0 h1 hint hunit
    have hd : (pySplitWs s)[0]?.getD "" = t0 := by
      rw [h0]
      rfl
    unfold parse_retry_time
    rw [h1, hd]
    rcases hunit with h | h <;> simp [h, hint]
  · intro s h
    unfold parse_retry_time at h
    rcases h1 : (pySplitWs s)[1]? with _ | u
    · rw [h1] at h
      exact absurd h (by simp)
    · rw [h1] at h
      refine ⟨u, rfl, ?_, ?_⟩ <;>
      · intro hu
        simp only [hu, if_true, reduceIte] at h
        rcases hpi : pyInt ((pySplitWs s)[0]?.getD "") with _ | k <;>
          simp [hpi] at h

/-- C10 witness: concrete instances of the partiality theorem. -/
theorem c10_witness :
    parse_retry_time "soon" = .error .indexError ∧
    parse_retry_time "x seconds" = .error .valueError :=
  ⟨c10_parse_retry_time_partiality.1 "soon" (by decide),
   c10_parse_retry_time_partiality.2.1 "x seconds" "x" "seconds"
     (by decide) (by decide) (by decide) (Or.inl (by decide))⟩

/-- C4: evaluation of the 429 path at its failing input.  With a failed
call, status 429 and body `Retry-After = "5 hours"` (an unparsable unit),
the helper does not retry but hands back the string `"5 hours"` in the
status slot instead of the original classified failure; the
missing-`Retry-After` branch, by contrast, does return the original
failure. -/
theorem c4_429_unparsable_returns_string :
    make_rest_call_helper_step false (some ⟨429, some "5 hours"⟩) =
      .ok (.done (.strVal "5 hours")) ∧
    make_rest_call_helper_step false (some ⟨429, none⟩) =
      .ok (.done (.status false)) := by
  decide

/-! List mutation engine: `_filter_endpoints`, `_amend_blocklist`,
`_amend_allowlist`, `_amend_category`.  Requested and existing endpoints
arrive as Python lists; the source immediately converts them with `set`,
so the computed delta and the reported summary are modelled as `Finset`.
The HTTP layer is abstracted: `fetchOk` says whether the initial read
succeeded (its payload is the `existing` list), `writeOk` whether the
write-back call was classified a success, and `writeStatus` is the status
code of the write response. -/

/-- The `updated`/`ignored` summary a completed mutation reports. -/
structure MutationSummary where
  updated : Finset String
  ignored : Finset String
  deriving DecidableEq

/-- The delta `_filter_endpoints` computes: for `REMOVE_FROM_LIST` the
source builds `set(existing) - (set(existing) - set(to_add))`, otherwise
`set(to_add) - set(existing)`. -/
def filter_delta (to_add existing : List String) (action : String) : Finset String :=
  if action = "REMOVE_FROM_LIST" then
    existing.toFinset \ (existing.toFinset \ to_add.toFinset)
  else to_add.toFinset \ existing.toFinset

/-- Result of `_filter_endpoints`: an empty delta short-circuits with a
success summary (`updated = []`, `ignored = to_add`) and no payload;
otherwise the delta is passed on for the write. -/
inductive FilterResult
  | shortCircuit (summary : MutationSummary)
  | proceed (endpoints : Finset String)
  deriving DecidableEq

/-- Embedding of `_filter_endpoints`. -/
def filter_endpoints (to_add existing : List String) (action : String) : FilterResult :=
  if filter_delta to_add existing action = ∅ then
    .shortCircuit ⟨∅, to_add.toFinset⟩
  else .proceed (filter_delta to_add existing action)

/-- Observable outcome of one list mutation: final status, reported
summary, whether the write-back REST call was issued, and the payload it
carried. -/
structure MutationOutcome where
  success : Bool
  summary : Option MutationSummary
  wroteList : Bool
  written : Option (Finset String)
  deriving DecidableEq

/-- Embedding of `_amend_blocklist` (with `_check_blocklist` inlined:
`existing` is the fetched `blacklistUrls`).  The write posts only the
filtered delta; a failed write is excused exactly when its status code is
204. -/
def amend_blocklist (endpoints existing : List String) (action : String)
    (fetchOk writeOk : Bool) (writeStatus : Nat) : MutationOutcome :=
  if fetchOk = false then ⟨false, none, false, none⟩
  else
    match filter_endpoints endpoints existing action with
    | .shortCircuit s => ⟨true, some s, false, none⟩
    | .proceed filtered =>
      if writeOk = false ∧ writeStatus ≠ 204 then ⟨false, none, true, some filtered⟩
      else ⟨true, some ⟨filtered, endpoints.toFinset \ filtered⟩, true, some filtered⟩

/-- Embedding of `_amend_allowlist` (with `_check_allowlist` inlined:
`existing` is the fetched `whitelistUrls`).  The write replaces the whole
list; any failed write is surfaced, with no 204 exception. -/
def amend_allowlist (endpoints existing : List String) (action : String)
    (fetchOk writeOk : Bool) (_writeStatus : Nat) : MutationOutcome :=
  if fetchOk = false then ⟨false, none, false, none⟩
  else
    match filter_endpoints endpoints existing action with
    | .shortCircuit s => ⟨true, some s, false, none⟩
    | .proceed filtered =>
      let to_add_endpoints :=
        if action = "ADD_TO_LIST" then existing.toFinset ∪ filtered
        else existing.toFinset \ filtered
      if writeOk = false then ⟨false, none, true, some to_add_endpoints⟩
      else ⟨true, some ⟨filtered, endpoints.toFinset \ filtered⟩, true, some to_add_endpoints⟩

/-- A URL category record: `id`, optional `configuredName`, and its URL
set `dbCategorizedUrls`. -/
structure Category where
  id : String
  configuredName : Option String
  dbCategorizedUrls : List String
  deriving DecidableEq

/-- Embedding of `_amend_category` (with `_check_category` inlined: `cat`
is the category record the lookup produced, `fetchOk` whether that lookup
succeeded).  The whole category URL set is written back; any failed write
is surfaced, with no 204 exception. -/
def amend_category (endpoints : List String) (cat : Category) (action : String)
    (fetchOk writeOk : Bool) (_writeStatus : Nat) : MutationOutcome :=
  if fetchOk = false then ⟨false, none, false, none⟩
  else
    match filter_endpoints endpoints cat.dbCategorizedUrls action with
    | .shortCircuit s => ⟨true, some s, false, none⟩
    | .proceed filtered =>
      let to_add_endpoints :=
        if action = "ADD_TO_LIST" then cat.dbCategorizedUrls.toFinset ∪ filtered
        else cat.dbCategorizedUrls.toFinset \ filtered
      if writeOk = false then ⟨false, none, true, some to_add_endpoints⟩
      else ⟨true, some ⟨filtered, endpoints.toFinset \ filtered⟩, true, some to_add_endpoints⟩

/-! Supporting lemmas for the mutation engine. -/

theorem filter_delta_subset (R E : List String) (action : String) :
    filter_delta R E action ⊆ R.toFinset := by
  unfold filter_delta
  split
  · rw [Finset.sdiff_sdiff_self_left]
    exact Finset.inter_subset_right
  · exact Finset.sdiff_subset

theorem filter_endpoints_shortCircuit_inv (R E : List String) (action : String)
    (s : MutationSummary) (h : filter_endpoints R E action = .shortCircuit s) :
    s = ⟨∅, R.toFinset⟩ ∧ filter_delta R E action = ∅ := by
  unfold filter_endpoints at h
  split at h
  · cases h
    exact ⟨rfl, by assumption⟩
  · cases h

theorem filter_endpoints_proceed_inv (R E : List String) (action : String)
    (f : Finset String) (h : filter_endpoints R E action = .proceed f) :
    f = filter_delta R E action := by
  unfold filter_endpoints at h
  split at h
  · cases h
  · cases h
    rfl

theorem union_summary (R : List String) (f : Finset String) (hf : f ⊆ R.toFinset) :
    f ∪ (R.toFinset \ f) = R.toFinset :=
  Finset.union_sdiff_of_subset hf

theorem amend_blocklist_summary (R E : List String) (action : String)
    (fetchOk writeOk : Bool) (ws : Nat) (s : MutationSummary)
    (h : (amend_blocklist R E action fetchOk writeOk ws).summary = some s) :
    s.updated ∪ s.ignored = R.toFinset := by
  unfold amend_blocklist at h
  split at h
  · exact absurd h (by simp)
  · split at h
    · rename_i s0 hfe
      obtain ⟨hs0, _⟩ := filter_endpoints_shortCircuit_inv R E action s0 hfe
      simp only [Option.some.injEq] at h
      rw [← h, hs0]
      exact Finset.empty_union _
    · rename_i f hfe
      have hfd := filter_endpoints_proceed_inv R E action f hfe
      split at h
      · exact absurd h (by simp)
      · simp only [Option.some.injEq] at h
        rw [← h]
        exact union_summary R f (hfd ▸ filter_delta_subset R E action)

theorem amend_allowlist_summary (R E : List String) (action : String)
    (fetchOk writeOk : Bool) (ws : Nat) (s : MutationSummary)
    (h : (amend_allowlist R E action fetchOk writeOk ws).summary = some s) :
    s.updated ∪ s.ignored = R.toFinset := by
  unfold amend_allowlist at h
  split at h
  · exact absurd h (by simp)
  · split at h
    · rename_i s0 hfe
      obtain ⟨hs0, _⟩ := filter_endpoints_shortCircuit_inv R E action s0 hfe
      simp only [Option.some.injEq] at h
      rw [← h, hs0]
      exact Finset.empty_union _
    · rename_i f hfe
      have hfd := filter_endpoints_proceed_inv R E action f hfe
      have hsub : f ⊆ R.toFinset := hfd ▸ filter_delta_subset R E action
      split at h <;> split at h <;> simp at h <;>
        (rw [← h]; exact union_summary R f hsub)

theorem amend_category_summary (R : List String) (cat : Category) (action : String)
    (fetchOk writeOk : Bool) (ws : Nat) (s : MutationSummary)
    (h : (amend_category R cat action fetchOk writeOk ws).summary = some s) :
    s.updated ∪ s.ignored = R.toFinset := by
  unfold amend_category at h
  split at h
  · exact absurd h (by simp)
  · split at h
    · rename_i s0 hfe
      obtain ⟨hs0, _⟩ :=
        filter_endpoints_shortCircuit_inv R cat.dbCategorizedUrls action s0 hfe
      simp only [Option.some.injEq] at h
      rw [← h, hs0]
      exact Finset.empty_union _
    · rename_i f hfe
      have hfd := filter_endpoints_proceed_inv R cat.dbCategorizedUrls action f hfe
      have hsub : f ⊆ R.toFinset := hfd ▸ filter_delta_subset R cat.dbCategorizedUrls action
      split at h <;> split at h <;> simp at h <;>
        (rw [← h]; exact union_summary R f hsub)

/-! Theorems for claims C2, C3 and C5. -/

/-- C2: viewing requested `R` and existing `E` as sets, the filter step
computes `to_write = R - E` for `ADD_TO_LIST` and `to_write = R ∩ E` for
`REMOVE_FROM_LIST`; and whenever a blocklist, allowlist or category
mutation reports a summary, `updated ∪ ignored = R`. -/
theorem c2_filter_delta_and_summary_union (R E : List String) (action : String)
    (fetchOk writeOk : Bool) (ws : Nat) (cat : Category) :
    filter_delta R E "ADD_TO_LIST" = R.toFinset \ E.toFinset ∧
    filter_delta R E "REMOVE_FROM_LIST" = R.toFinset ∩ E.toFinset ∧
    (∀ s, (amend_blocklist R E action fetchOk writeOk ws).summary = some s →
      s.updated ∪ s.ignored = R.toFinset) ∧
    (∀ s, (amend_allowlist R E action fetchOk writeOk ws).summary = some s →
      s.updated ∪ s.ignored = R.toFinset) ∧
    (∀ s, (amend_category R cat action fetchOk writeOk ws).summary = some s →
      s.updated ∪ s.ignored = R.toFinset) := by
  refine ⟨?_, ?_, ?_, ?_, ?_⟩
  · unfold filter_delta
    simp
  · unfold filter_delta
    rw [if_pos rfl, Finset.sdiff_sdiff_self_left, Finset.inter_comm]
  · exact fun s h => amend_blocklist_summary R E action fetchOk writeOk ws s h
  · exact fun s h => amend_allowlist_summary R E action fetchOk writeOk ws s h
  · exact fun s h => amend_category_summary R cat action fetchOk writeOk ws s h

/-- C2 witness: a concrete add of `"a"` to an empty blocklist reports
`updated = set ["a"]`, `ignored = empty`, whose union is the requested
set. -/
theorem c2_witness :
    ({"a"} : Finset String) ∪ (∅ : Finset String) = (["a"] : List String).toFinset :=
  (c2_filter_delta_and_summary_union ["a"] [] "ADD_TO_LIST" true true 200
    ⟨"CUSTOM_01", none, []⟩).2.2.1 ⟨{"a"}, ∅⟩ (by decide)

/-- C3: when the computed delta is empty (`ADD_TO_LIST` with `R ⊆ E`, or
`REMOVE_FROM_LIST` with `R ∩ E = ∅`), the blocklist mutation
short-circuits: success, `updated = []`, `ignored = R`, and no write call
is issued; and a second `ADD_TO_LIST` against a server list that already
contains everything requested (`E ++ R`) short-circuits the same way. -/
theorem c3_empty_delta_short_circuits (R E : List String) (writeOk : Bool) (ws : Nat) :
    (R.toFinset ⊆ E.toFinset →
      amend_blocklist R E "ADD_TO_LIST" true writeOk ws =
        ⟨true, some ⟨∅, R.toFinset⟩, false, none⟩) ∧
    (R.toFinset ∩ E.toFinset = ∅ →
      amend_blocklist R E "REMOVE_FROM_LIST" true writeOk ws =
        ⟨true, some ⟨∅, R.toFinset⟩, false, none⟩) ∧
    amend_blocklist R (E ++ R) "ADD_TO_LIST" true writeOk ws =
      ⟨true, some ⟨∅, R.toFinset⟩, false, none⟩ := by
  have key : ∀ E1 : List String, filter_delta R E1 "ADD_TO_LIST" = ∅ →
      amend_blocklist R E1 "ADD_TO_LIST" true writeOk ws =
        ⟨true, some ⟨∅, R.toFinset⟩, false, none⟩ := by
    intro E1 hdel
    unfold amend_blocklist filter_endpoints
    rw [if_neg (by simp), if_pos hdel]
  refine ⟨?_, ?_, ?_⟩
  · intro hsub
    exact key E (by
      unfold filter_delta
      rw [if_neg (by decide), Finset.sdiff_eq_empty_iff_subset]
      exact hsub)
  · intro hint
    unfold amend_blocklist filter_endpoints
    have hdel : filter_delta R E "REMOVE_FROM_LIST" = ∅ := by
      unfold filter_delta
      rw [if_pos rfl, Finset.sdiff_sdiff_self_left, Finset.inter_comm]
      exact hint
    rw [if_neg (by simp), if_pos hdel]
  · exact key (E ++ R) (by
      unfold filter_delta
      rw [if_neg (by decide), Finset.sdiff_eq_empty_iff_subset]
      intro x hx
      rw [List.toFinset_append]
      exact Finset.mem_union_right _ hx)

/-- C3 witness: adding `"a"` when the blocklist already holds it
short-circuits with `updated = []`, `ignored = set ["a"]` and no write. -/
theorem c3_witness :
    amend_blocklist ["a"] ["a", "b"] "ADD_TO_LIST" true true 200 =
      ⟨true, some ⟨∅, (["a"] : List String).toFinset⟩, false, none⟩ :=
  (c3_empty_delta_short_circuits ["a"] ["a", "b"] true 200).1 (by decide)

/-- C5 counterexample: with a non-empty delta and a write classified as a
failure whose response status is 204, the allowlist and category
mutations surface the failure, while only the blocklist mutation reports
success — refuting the claim that all three behave alike. -/
theorem c5_counterexample_only_blocklist_excuses_204 :
    amend_allowlist ["a"] [] "ADD_TO_LIST" true false 204 =
      ⟨false, none, true, some {"a"}⟩ ∧
    amend_category ["a"] ⟨"CUSTOM_01", some "mycat", []⟩ "ADD_TO_LIST" true false 204 =
      ⟨false, none, true, some {"a"}⟩ ∧
    amend_blocklist ["a"] [] "ADD_TO_LIST" true false 204 =
      ⟨true, some ⟨{"a"}, ∅⟩, true, some {"a"}⟩ := by
  decide

/-- C5 amended: only the blocklist mutation treats a failed write whose
response status is 204 as success; the allowlist and category mutations
surface every write failure (204 included), and the blocklist surfaces
failed writes with any other status whenever a write was attempted. -/
theorem c5_amended_write_failure_handling (R E : List String) (action : String)
    (ws : Nat) (cat : Category) :
    (amend_blocklist R E action true false 204).success = true ∧
    (∀ f, filter_endpoints R E action = .proceed f → ws ≠ 204 →
      (amend_blocklist R E action true false ws).success = false) ∧
    (∀ f, filter_endpoints R E action = .proceed f →
      (amend_allowlist R E action true false ws).success = false) ∧
    (∀ f, filter_endpoints R cat.dbCategorizedUrls action = .proceed f →
      (amend_category R cat action true false ws).success = false) := by
  refine ⟨?_, ?_, ?_, ?_⟩
  · unfold amend_blocklist
    rw [if_neg (by simp)]
    split
    · rfl
    · simp
  · intro f hfe hws
    unfold amend_blocklist
    rw [if_neg (by simp), hfe]
    simp [hws]
  · intro f hfe
    unfold amend_allowlist
    rw [if_neg (by simp), hfe]
    simp
  · intro f hfe
    unfold amend_category
    rw [if_neg (by simp), hfe]
    simp

/-- C5 witness: concrete instances — the blocklist excuses a 204 write
failure, the allowlist surfaces a write failure with status 500. -/
theorem c5_witness :
    (amend_blocklist ["a"] [] "ADD_TO_LIST" true false 204).success = true ∧
    (amend_allowlist ["a"] [] "ADD_TO_LIST" true false 500).success = false :=
  ⟨(c5_amended_write_failure_handling ["a"] [] "ADD_TO_LIST" 500
      ⟨"CUSTOM_01", none, []⟩).1,
   (c5_amended_write_failure_handling ["a"] [] "ADD_TO_LIST" 500
      ⟨"CUSTOM_01", none, []⟩).2.2.1 {"a"} (by decide)⟩

/-! Category lookup: `_get_category` (claim C6). -/

/-- First loop of `_get_category`: return the first record whose
`configuredName` equals the requested identifier (`cat.get('configuredName',
None) == category`). -/
def find_by_configured_name : List Category → String → Option Category
  | [], _ => none
  | cat :: rest, c =>
    if cat.configuredName = some c then some cat else find_by_configured_name rest c

/-- Second loop of `_get_category`: return the first record whose `id`
equals the requested identifier exactly. -/
def find_by_id : List Category → String → Option Category
  | [], _ => none
  | cat :: rest, c => if cat.id = c then some cat else find_by_id rest c

/-- Embedding of `_get_category` after a successful fetch of
`/api/v1/urlCategories`: the configured-name loop runs first, the id loop
second, and a miss on both is the error `"Unable to find category"`. -/
def get_category (cats : List Category) (category : String) : Except String Category :=
  match find_by_configured_name cats category with
  | some cat => .ok cat
  | none =>
    match find_by_id cats category with
    | some cat => .ok cat
    | none => .error "Unable to find category"

theorem find_by_configured_name_eq (cats : List Category) (c : String) :
    find_by_configured_name cats c =
      cats.find? (fun k => k.configuredName == some c) := by
  induction cats with
  | nil => rfl
  | cons k rest ih =>
    unfold find_by_configured_name
    rw [List.find?_cons, ih]
    by_cases h : k.configuredName = some c
    · have hb : (k.configuredName == some c) = true := beq_iff_eq.mpr h
      rw [if_pos h, hb]
    · have hb : (k.configuredName == some c) = false := by
        simp [h]
      rw [if_neg h, hb]

theorem find_by_id_eq (cats : List Category) (c : String) :
    find_by_id cats c = cats.find? (fun k => k.id == c) := by
  induction cats with
  | nil => rfl
  | cons k rest ih =>
    unfold find_by_id
    rw [List.find?_cons, ih]
    by_cases h : k.id = c
    · have hb : (k.id == c) = true := beq_iff_eq.mpr h
      rw [if_pos h, hb]
    · have hb : (k.id == c) = false := by
        simp [h]
      rw [if_neg h, hb]

/-- C6: category lookup returns the first category whose `configuredName`
equals the identifier; failing that, the first whose `id` equals it
exactly; and when neither matches it returns the error
`"Unable to find category"` rather than an empty success. -/
theorem c6_get_category_name_then_id (cats : List Category) (c : String) :
    get_category cats c =
      match cats.find? (fun k => k.configuredName == some c) with
      | some k => Except.ok k
      | none =>
        match cats.find? (fun k => k.id == c) with
        | some k => Except.ok k
        | none => Except.error "Unable to find category" := by
  unfold get_category
  rw [find_by_configured_name_eq, find_by_id_eq]

/-! Endpoint normalization: the comma-split/strip/filter preamble shared
by the block/unblock/allow/unallow/lookup handlers, `_truncate_protocol`
and `_check_for_overlength` (claim C7). -/

/-- The shared preamble
`[x.strip() for x in endpoints.split(',')]` followed by
`list(filter(None, ...))`: split on commas, strip whitespace, drop empty
entries. -/
def split_and_clean (raw : String) : List String :=
  ((pySplitChar ',' raw).map pyStrip).filter (fun x => x ≠ "")

/-- One step of `_truncate_protocol`: strip a single leading `http://`
(checked first) or `https://`, by exact case-sensitive prefix match. -/
def strip_scheme (e : String) : String :=
  if ("http://".data).isPrefixOf e.data then ⟨e.data.drop 7⟩
  else if ("https://".data).isPrefixOf e.data then ⟨e.data.drop 8⟩
  else e

/-- Embedding of `_truncate_protocol`. -/
def truncate_protocol (endpoints : List String) : List String :=
  endpoints.map strip_scheme

/-- Embedding of `_check_for_overlength`: `True` when every entry has
length at most 1024 (the source errors on the first longer one). -/
def check_for_overlength (endpoints : List String) : Bool :=
  endpoints.all (fun url => decide (url.length ≤ 1024))

/-- How an action handler leaves the normalization stage: rejected by the
over-length validation before any REST call, or proceeding with the
endpoint list it will use. -/
inductive ActionStart
  | rejected
  | proceed (endpoints : List String)
  deriving DecidableEq

/-- Normalization stage of the url-variant actions (`block_url`,
`unblock_url`, `allow_url`, `unallow_url`, `lookup_url`): split and clean,
strip protocol, then `_check_for_overlength` gates the REST calls. -/
def url_action_start (raw : String) : ActionStart :=
  if check_for_overlength (truncate_protocol (split_and_clean raw)) then
    .proceed (truncate_protocol (split_and_clean raw))
  else .rejected

/-- Normalization stage of the ip-variant block/unblock/allow/unallow
actions: protocol is stripped but no length check is performed. -/
def ip_action_start (raw : String) : ActionStart :=
  .proceed (truncate_protocol (split_and_clean raw))

/-- Normalization stage of `_handle_lookup_ip`: split and clean only —
`_truncate_protocol` is never called on this path. -/
def lookup_ip_start (raw : String) : ActionStart :=
  .proceed (split_and_clean raw)

/-- The claim's wording of normalization: split on commas, trim
whitespace, drop empty entries, then strip one leading scheme from every
entry. -/
def normalize_claim (raw : String) : List String :=
  (((pySplitChar ',' raw).map pyStrip).filter (fun e => e ≠ "")).map strip_scheme

/-- C7 counterexample: `lookup_ip` keeps the scheme prefix, so its
endpoint list differs from the claimed normalization at the concrete
input `"http://1.2.3.4"`. -/
theorem c7_counterexample_lookup_ip_keeps_scheme :
    lookup_ip_start "http://1.2.3.4" = .proceed ["http://1.2.3.4"] ∧
    normalize_claim "http://1.2.3.4" = ["1.2.3.4"] := by
  decide

/-- C7 amended: the ip-variant block/unblock/allow/unallow actions and
(with the 1024 length gate) the url-variant actions use exactly the
claimed normalization, while `lookup_ip` splits, trims and drops empties
but does not strip the scheme; a url-variant action proceeds with the
normalized list when every entry has length at most 1024 and is rejected
before any REST call when some entry is longer. -/
theorem c7_amended_normalization (raw : String) :
    ip_action_start raw = .proceed (normalize_claim raw) ∧
    lookup_ip_start raw = .proceed (split_and_clean raw) ∧
    ((∀ e ∈ normalize_claim raw, e.length ≤ 1024) →
      url_action_start raw = .proceed (normalize_claim raw)) ∧
    ((∃ e ∈ normalize_claim raw, 1024 < e.length) →
      url_action_start raw = .rejected) := by
  have hover : ∀ l : List String, check_for_overlength l = true ↔
      ∀ e ∈ l, e.length ≤ 1024 := by
    intro l
    unfold check_for_overlength
    rw [List.all_eq_true]
    constructor
    · intro h e he
      exact of_decide_eq_true (h e he)
    · intro h e he
      exact decide_eq_true (h e he)
  refine ⟨rfl, rfl, ?_, ?_⟩
  · intro h
    unfold url_action_start
    rw [if_pos ((hover (truncate_protocol (split_and_clean raw))).mpr h)]
    rfl
  · intro h
    unfold url_action_start
    rw [if_neg ?hc]
    case hc =>
      intro hall
      obtain ⟨e, he, hlen⟩ := h
      exact absurd ((hover (truncate_protocol (split_and_clean raw))).mp hall e he) (by omega)

set_option maxRecDepth 100000 in
/-- C7 witness: a mixed concrete input is split, trimmed, de-emptied and
scheme-stripped; a single 1025-character entry is rejected before any
network call. -/
theorem c7_witness :
    url_action_start "https://good.example, , http://other.example" =
      .proceed ["good.example", "other.example"] ∧
    url_action_start ⟨List.replicate 1025 'a'⟩ = .rejected :=
  ⟨by
    rw [(c7_amended_normalization
      "https://good.example, , http://other.example").2.2.1 (by decide)]
    decide,
   (c7_amended_normalization ⟨List.replicate 1025 'a'⟩).2.2.2 (by decide)⟩

/-! Lookup action trace: `_lookup_endpoint` (claim C9). -/

/-- Trace of one `_lookup_endpoint` run: the REST paths requested, in
order, and the final status. -/
structure LookupTrace where
  calls : List String
  success : Bool
  deriving DecidableEq

/-- Embedding of `_lookup_endpoint`.  The source begins with
`if not endpoints: action_result.set_status(APP_ERROR, ...)` but that
statement lacks a `return`: the error status is set, discarded, and
execution falls through to the two REST calls unconditionally, the final
`set_status(APP_SUCCESS)` overwriting it.  `lookupOk` and `blocklistOk`
are the classifications of the `urlLookup` POST and the blocklist GET. -/
def lookup_endpoint (endpoints : List String) (lookupOk blocklistOk : Bool) : LookupTrace :=
  let _empty_check_has_no_effect := endpoints.isEmpty
  if lookupOk = false then ⟨["/api/v1/urlLookup"], false⟩
  else if blocklistOk = false then
    ⟨["/api/v1/urlLookup", "/api/v1/security/advanced"], false⟩
  else ⟨["/api/v1/urlLookup", "/api/v1/security/advanced"], true⟩

/-- C9: at the failing input — an empty endpoint list with both REST calls
succeeding — the lookup issues both network calls and returns success,
because the validation `set_status` is not followed by a `return`. -/
theorem c9_empty_lookup_still_calls_network :
    lookup_endpoint [] true true =
      ⟨["/api/v1/urlLookup", "/api/v1/security/advanced"], true⟩ := rfl

/-! Response classifier: `_process_response`, `_process_json_response`,
`_process_html_response`, `_process_empty_reponse` (claim C8). -/

/-- The parsed JSON body as far as the classifier inspects it: its
optional `message` field. -/
structure JsonBody where
  message : Option String
  deriving DecidableEq

/-- An HTTP response as the classifier sees it: status code, Content-Type
header (empty string when absent), raw body text, and the result of
`r.json()` (`none` models a parse failure). -/
structure HttpResponse where
  status_code : Nat
  contentType : String
  text : String
  jsonBody : Option JsonBody
  deriving DecidableEq

/-- Outcome of classification: a success payload (the parsed JSON body,
or `none` for the `{}` an empty response yields), or an error message. -/
inductive ProcessResult
  | ok (body : Option JsonBody)
  | err (message : String)
  deriving DecidableEq

/-- Python `s.replace('\x7b', '\x7b\x7b').replace('\x7d', '\x7d\x7d')`:
both patterns are single characters and the first replacement inserts no
closing brace, so the two sequential passes act character-wise, doubling
every brace. -/
def escapeBraces (s : String) : String :=
  ⟨s.data.flatMap (fun c =>
    if c = '\x7b' then ['\x7b', '\x7b']
    else if c = '\x7d' then ['\x7d', '\x7d']
    else [c])⟩

/-- The fixed prefix of every HTML-classification error message. -/
def baseHint : String :=
  "Please check the asset configuration parameters (the base_url should not end with /api/v1 e.g. https://admin.zscaler_instance.net)."

/-- Python `'\n'.join(pieces)`. -/
def joinLines : List String → String
  | [] => ""
  | [l] => l
  | l :: rest => l ++ "\n" ++ joinLines rest

/-- The soup text post-processing of `_process_html_response`: split on
newlines, strip each line, drop blank lines, rejoin with newlines. -/
def collapse_lines (s : String) : String :=
  joinLines (((pySplitChar '\n' s).map pyStrip).filter (fun x => x ≠ ""))

/-- Embedding of `_process_html_response`.  `extract` abstracts
`BeautifulSoup(response.text, "html.parser").text` (tag stripping).  The
status line and server text are appended only when the collapsed text has
length at most 500, and the assembled message has every brace doubled at
the end. -/
def process_html_response (extract : String → String) (r : HttpResponse) : ProcessResult :=
  let error_text := collapse_lines (extract r.text)
  let message := baseHint ++
    (if error_text.length ≤ 500 then
      "Status Code: " ++ Nat.repr r.status_code ++ ". Data from server:\n" ++
        error_text ++ "\n"
    else "")
  .err (escapeBraces message)

/-- Embedding of `_process_json_response`. -/
def process_json_response (r : HttpResponse) : ProcessResult :=
  match r.jsonBody with
  | none => .err "Unable to parse JSON response"
  | some resp_json =>
    if 200 ≤ r.status_code ∧ r.status_code < 399 then .ok (some resp_json)
    else
      match resp_json.message with
      | some m => .err m
      | none =>
        .err ("Error from server. Status Code: " ++ Nat.repr r.status_code ++
          " Data from server: " ++ escapeBraces r.text)

/-- Embedding of `_process_empty_reponse`. -/
def process_empty_response (r : HttpResponse) : ProcessResult :=
  if r.status_code = 200 ∨ r.status_code = 204 then .ok none
  else .err "Empty response and no information in the header"

/-- Embedding of `_process_response`: a Content-Type containing `json` is
classified first, then one containing `html`, then empty bodies; anything
else is an error embedding status and escaped body. -/
def process_response (extract : String → String) (r : HttpResponse) : ProcessResult :=
  if containsSub r.contentType "json" = true then process_json_response r
  else if containsSub r.contentType "html" = true then process_html_response extract r
  else if r.text = "" then process_empty_response r
  else
    .err ("Can't process response from server. Status Code: " ++
      Nat.repr r.status_code ++ " Data from server: " ++ escapeBraces r.text)

/-- The amended claim's description of the HTML error message: the hint,
followed — only when the collapsed detail has at most 500 characters — by
the status line and the detail, with braces escaped. -/
def html_message_claim (status : Nat) (detail : String) : String :=
  if detail.length ≤ 500 then
    escapeBraces (baseHint ++ "Status Code: " ++ Nat.repr status ++
      ". Data from server:\n" ++ detail ++ "\n")
  else escapeBraces baseHint

theorem escapeBraces_append (a b : String) :
    escapeBraces (a ++ b) = escapeBraces a ++ escapeBraces b := by
  unfold escapeBraces
  show String.mk _ = String.mk _
  rw [String.data_append, List.flatMap_append]

/-! Theorems for claim C8. -/

set_option maxRecDepth 100000 in
/-- C8 counterexample: two concrete responses refuting the claim as
stated.  First, a Content-Type containing both `json` and `html` is
dispatched to the JSON branch, so a status-200 response with a good JSON
body classifies as a success, not an error.  Second, a successfully
parsed HTML text of 501 characters is omitted from the error message
entirely (the message is the bare hint) rather than truncated to 500
characters. -/
theorem c8_counterexample_html_classification :
    process_response (fun s => s) ⟨200, "text/json html", "x", some ⟨none⟩⟩ =
      .ok (some ⟨none⟩) ∧
    process_response (fun s => s)
        ⟨200, "text/html", ⟨List.replicate 501 'a'⟩, none⟩ =
      .err baseHint := by
  constructor
  · decide
  · decide

/-- C8 amended: for every response whose Content-Type contains `html` but
not `json`, the classifier returns an error regardless of the status
code; the message is the escaped concatenation of the base-URL hint and —
only when the tag-stripped, blank-line-collapsed server text has at most
500 characters — the status line with that text; and the message always
starts with the hint. -/
theorem c8_amended_html_classification (extract : String → String) (r : HttpResponse)
    (hhtml : containsSub r.contentType "html" = true)
    (hjson : containsSub r.contentType "json" = false) :
    process_response extract r =
      .err (html_message_claim r.status_code (collapse_lines (extract r.text))) ∧
    ∃ tail, html_message_claim r.status_code (collapse_lines (extract r.text)) =
      baseHint ++ tail := by
  have hbase : escapeBraces baseHint = baseHint := by decide
  constructor
  · simp only [process_response, process_html_response, html_message_claim]
    rw [if_neg (by rw [hjson]; exact Bool.false_ne_true), if_pos hhtml]
    by_cases hlen : (collapse_lines (extract r.text)).length ≤ 500
    · rw [if_pos hlen, if_pos hlen]
      simp only [String.append_assoc]
    · rw [if_neg hlen, if_neg hlen, String.append_empty]
  · simp only [html_message_claim]
    by_cases hlen : (collapse_lines (extract r.text)).length ≤ 500
    · rw [if_pos hlen]
      refine ⟨escapeBraces ("Status Code: " ++ (Nat.repr r.status_code ++
        (". Data from server:\n" ++ (collapse_lines (extract r.text) ++ "\n")))), ?_⟩
      simp only [String.append_assoc]
      rw [escapeBraces_append, hbase]
    · rw [if_neg hlen]
      exact ⟨"", by rw [hbase, String.append_empty]⟩

/-- C8 witness: a concrete bad-gateway HTML response classifies as the
claimed error message. -/
theorem c8_witness :
    process_response (fun s => s) ⟨502, "text/html", "bad gateway", none⟩ =
      .err (html_message_claim 502 "bad gateway") :=
  (c8_amended_html_classification (fun s => s) ⟨502, "text/html", "bad gateway", none⟩
    (by decide) (by decide)).1

/-! Key obfuscation: `_obfuscate_api_key` (claim C1).  Python `str(int)`
is `Nat.repr`; the lemmas below establish that its characters are decimal
digits and how its length relates to the value, so that the digit-indexed
selections into `api_key` can be bounded. -/

theorem toDigitsCore_succ (f n : Nat) (acc : List Char) :
    Nat.toDigitsCore 10 (f + 1) n acc =
      if n / 10 = 0 then Nat.digitChar (n % 10) :: acc
      else Nat.toDigitsCore 10 f (n / 10) (Nat.digitChar (n % 10) :: acc) := rfl

theorem toDigitsCore_acc (n : Nat) : ∀ fuel acc, n < fuel →
    Nat.toDigitsCore 10 fuel n acc = Nat.toDigits 10 n ++ acc := by
  induction n using Nat.strong_induction_on with
  | _ n ih =>
    intro fuel acc hf
    match fuel, hf with
    | f + 1, hf =>
      rw [toDigitsCore_succ]
      by_cases h0 : n / 10 = 0
      · rw [if_pos h0]
        show _ = Nat.toDigitsCore 10 (n + 1) n [] ++ acc
        rw [toDigitsCore_succ, if_pos h0]
        rfl
      · rw [if_neg h0]
        have hge : 10 ≤ n := by
          by_contra hlt
          exact h0 (Nat.div_eq_of_lt (by omega))
        have hn10 : n / 10 < n := Nat.div_lt_self (by omega) (by omega)
        rw [ih (n / 10) hn10 f _ (by omega)]
        show _ = Nat.toDigitsCore 10 (n + 1) n [] ++ acc
        rw [toDigitsCore_succ, if_neg h0]
        rw [ih (n / 10) hn10 n _ (by omega)]
        rw [List.append_assoc]
        rfl

theorem toDigits10_unfold (n : Nat) :
    Nat.toDigits 10 n =
      if n < 10 then [Nat.digitChar n]
      else Nat.toDigits 10 (n / 10) ++ [Nat.digitChar (n % 10)] := by
  show Nat.toDigitsCore 10 (n + 1) n [] = _
  rw [toDigitsCore_succ]
  by_cases h : n < 10
  · rw [if_pos (Nat.div_eq_of_lt h), if_pos h, Nat.mod_eq_of_lt h]
  · have h0 : ¬ n / 10 = 0 := by
      intro hc
      exact h (by omega)
    rw [if_neg h0, if_neg h]
    have hn10 : n / 10 < n := Nat.div_lt_self (by omega) (by omega)
    exact toDigitsCore_acc (n / 10) n _ (by omega)

theorem digitChar_digit (d : Nat) (h : d < 10) :
    (Nat.digitChar d).isDigit = true ∧ charDigit (Nat.digitChar d) = d := by
  interval_cases d <;> exact ⟨by decide, by decide⟩

theorem toDigits_mem_digit (n : Nat) :
    ∀ c ∈ Nat.toDigits 10 n, c.isDigit = true ∧ charDigit c ≤ 9 := by
  induction n using Nat.strong_induction_on with
  | _ n ih =>
    intro c hc
    rw [toDigits10_unfold] at hc
    by_cases h : n < 10
    · rw [if_pos h] at hc
      have hc2 := List.mem_singleton.mp hc
      subst hc2
      obtain ⟨h1, h2⟩ := digitChar_digit n h
      exact ⟨h1, by omega⟩
    · rw [if_neg h] at hc
      rcases List.mem_append.mp hc with h1 | h2
      · exact ih (n / 10) (Nat.div_lt_self (by omega) (by omega)) c h1
      · have hc2 := List.mem_singleton.mp h2
        subst hc2
        obtain ⟨h1, h2⟩ := digitChar_digit (n % 10) (Nat.mod_lt n (by omega))
        exact ⟨h1, by omega⟩

/-- Decimal value of a digit-character list, most significant first:
Python `int` applied to a digit string. -/
def digitsVal (l : List Char) : Nat := l.foldl (fun a c => a * 10 + charDigit c) 0

theorem digitsVal_aux_lt (l : List Char) (hl : ∀ c ∈ l, charDigit c ≤ 9) :
    ∀ a, l.foldl (fun a c => a * 10 + charDigit c) a < (a + 1) * 10 ^ l.length := by
  induction l with
  | nil =>
    intro a
    simp
  | cons c rest ih =>
    intro a
    have hc : charDigit c ≤ 9 := hl c (List.mem_cons_self c rest)
    have h1 := ih (fun d hd => hl d (List.mem_cons_of_mem c hd)) (a * 10 + charDigit c)
    simp only [List.foldl_cons, List.length_cons]
    calc List.foldl (fun a c => a * 10 + charDigit c) (a * 10 + charDigit c) rest
        < (a * 10 + charDigit c + 1) * 10 ^ rest.length := h1
      _ ≤ ((a + 1) * 10) * 10 ^ rest.length := by
          apply Nat.mul_le_mul_right
          omega
      _ = (a + 1) * 10 ^ (rest.length + 1) := by ring

theorem digitsVal_lt (l : List Char) (hl : ∀ c ∈ l, charDigit c ≤ 9) :
    digitsVal l < 10 ^ l.length := by
  have := digitsVal_aux_lt l hl 0
  simpa [digitsVal] using this

theorem digitsVal_append_singleton (l : List Char) (c : Char) :
    digitsVal (l ++ [c]) = digitsVal l * 10 + charDigit c := by
  unfold digitsVal
  rw [List.foldl_append]
  rfl

theorem digitsVal_toDigits (n : Nat) : digitsVal (Nat.toDigits 10 n) = n := by
  induction n using Nat.strong_induction_on with
  | _ n ih =>
    rw [toDigits10_unfold]
    by_cases h : n < 10
    · rw [if_pos h]
      show 0 * 10 + charDigit (Nat.digitChar n) = n
      rw [(digitChar_digit n h).2]
      omega
    · rw [if_neg h]
      rw [digitsVal_append_singleton,
        ih (n / 10) (Nat.div_lt_self (by omega) (by omega)),
        (digitChar_digit (n % 10) (Nat.mod_lt n (by omega))).2]
      omega

theorem toDigits_length_le (n : Nat) : ∀ k, 1 ≤ k → n < 10 ^ k →
    (Nat.toDigits 10 n).length ≤ k := by
  induction n using Nat.strong_induction_on with
  | _ n ih =>
    intro k hk hn
    rw [toDigits10_unfold]
    by_cases h : n < 10
    · rw [if_pos h]
      simp only [List.length_singleton]
      omega
    · rw [if_neg h]
      rw [List.length_append]
      have hk2 : 2 ≤ k := by
        by_contra hlt
        have hk1 : k = 1 := by omega
        subst hk1
        simp at hn
        omega
      have hdiv : n / 10 < 10 ^ (k - 1) := by
        rw [Nat.div_lt_iff_lt_mul (by omega)]
        calc n < 10 ^ k := hn
          _ = 10 ^ (k - 1) * 10 := by
              rw [← pow_succ]
              congr 1
              omega
      have hlen := ih (n / 10) (Nat.div_lt_self (by omega) (by omega)) (k - 1) (by omega) hdiv
      simp only [List.length_singleton]
      omega

theorem toDigits_length_ge (n k : Nat) (h : 10 ^ k ≤ n) :
    k + 1 ≤ (Nat.toDigits 10 n).length := by
  by_contra hlt
  have hle : (Nat.toDigits 10 n).length ≤ k := by omega
  have hdig : ∀ c ∈ Nat.toDigits 10 n, charDigit c ≤ 9 :=
    fun c hc => (toDigits_mem_digit n c hc).2
  have hval := digitsVal_lt _ hdig
  rw [digitsVal_toDigits] at hval
  have : n < 10 ^ k :=
    lt_of_lt_of_le hval (Nat.pow_le_pow_right (by omega) hle)
  omega

/-- Python `int(s)` on the all-digit slices arising in the key
obfuscation. -/
def pyStrToNat (s : String) : Nat := digitsVal s.data

/-- Python slicing `s[-k:]`. -/
def strTakeRight (s : String) (k : Nat) : String :=
  ⟨s.data.drop (s.data.length - k)⟩

/-- Python `s.zfill(w)` for unsigned content: pad on the left with zeros
to width `w`. -/
def zfill (s : String) (w : Nat) : String :=
  ⟨List.replicate (w - s.data.length) '0' ++ s.data⟩

/-- One obfuscation loop: `key += api_key[idx c]` over the characters of
a digit string, `none` when Python would raise `IndexError`. -/
def pickChars (api_key : String) (idx : Char → Nat) : List Char → Option (List Char)
  | [] => some []
  | c :: rest =>
    match api_key.data[idx c]?, pickChars api_key idx rest with
    | some d, some ds => some (d :: ds)
    | _, _ => none

/-- Embedding of `_obfuscate_api_key`, with the clock value
`int(time.time() * 1000)` passed explicitly as `nowMs`: `now = str(nowMs)`,
`n = now[-6:]`, `r = str(int(n) >> 1).zfill(6)`, then the two selection
loops `api_key[int(n[i])]` and `api_key[int(r[j]) + 2]`. -/
def obfuscate_api_key (api_key : String) (nowMs : Nat) : Option (String × String) :=
  let now := Nat.repr nowMs
  let n := strTakeRight now 6
  let r := zfill (Nat.repr (pyStrToNat n >>> 1)) 6
  match pickChars api_key (fun c => charDigit c) n.data,
      pickChars api_key (fun c => charDigit c + 2) r.data with
  | some k1, some k2 => some (now, ⟨k1 ++ k2⟩)
  | _, _ => none

/-- The claim's description of the output: the timestamp string together
with the key whose first 6 characters are `api_key[int(n[i])]` and last 6
are `api_key[int(r[j]) + 2]`, for `n` the last 6 digits of the timestamp
and `r` the zero-padded `str(int(n) >> 1)`. -/
def obfuscate_api_key_claim (api_key : String) (nowMs : Nat) : String × String :=
  let now := Nat.repr nowMs
  let n := strTakeRight now 6
  let r := zfill (Nat.repr (pyStrToNat n >>> 1)) 6
  (now, ⟨n.data.map (fun c => (api_key.data[charDigit c]?).getD ' ') ++
         r.data.map (fun c => (api_key.data[charDigit c + 2]?).getD ' ')⟩)

theorem pickChars_total (api_key : String) (idx : Char → Nat) (l : List Char)
    (h : ∀ c ∈ l, idx c < api_key.data.length) :
    pickChars api_key idx l =
      some (l.map (fun c => (api_key.data[idx c]?).getD ' ')) := by
  induction l with
  | nil => rfl
  | cons c rest ih =>
    unfold pickChars
    have hc : idx c < api_key.data.length := h c (List.mem_cons_self c rest)
    have hsome : api_key.data[idx c]? = some ((api_key.data[idx c]?).getD ' ') := by
      rw [List.getElem?_eq_getElem hc]
      rfl
    rw [hsome, ih (fun d hd => h d (List.mem_cons_of_mem c hd))]
    rfl

/-- C1 counterexample: at clock value 0 the timestamp has a single digit,
so even with a 12-character api_key the derived key has 7 characters, not
12 — the claim fails for that clock value. -/
theorem c1_counterexample_small_clock :
    ("abcdefghijkl" : String).length = 12 ∧
    (obfuscate_api_key "abcdefghijkl" 0).map (fun p => p.2.length) = some 7 := by
  decide

/-- C1 amended: for every api_key of length at least 12 and every clock
value of at least 100000 milliseconds (a timestamp of at least six
digits), `_obfuscate_api_key` succeeds and deterministically returns the
timestamp string together with the 12-character key built exactly as the
claim describes. -/
theorem c1_obfuscate_matches_claim (api_key : String) (nowMs : Nat)
    (hkey : 12 ≤ api_key.length) (hclock : 100000 ≤ nowMs) :
    obfuscate_api_key api_key nowMs = some (obfuscate_api_key_claim api_key nowMs) ∧
    (obfuscate_api_key_claim api_key nowMs).1 = Nat.repr nowMs ∧
    (obfuscate_api_key_claim api_key nowMs).2.length = 12 := by
  have hreprdata : (Nat.repr nowMs).data = Nat.toDigits 10 nowMs := rfl
  have hlen6 : 6 ≤ (Nat.repr nowMs).data.length := by
    rw [hreprdata]
    exact toDigits_length_ge nowMs 5 hclock
  have hn_data : (strTakeRight (Nat.repr nowMs) 6).data =
      (Nat.repr nowMs).data.drop ((Nat.repr nowMs).data.length - 6) := rfl
  have hn_len : (strTakeRight (Nat.repr nowMs) 6).data.length = 6 := by
    rw [hn_data, List.length_drop]
    omega
  have hn_dig : ∀ c ∈ (strTakeRight (Nat.repr nowMs) 6).data, charDigit c ≤ 9 := by
    intro c hc
    rw [hn_data, hreprdata] at hc
    exact (toDigits_mem_digit nowMs c (List.mem_of_mem_drop hc)).2
  have hval : pyStrToNat (strTakeRight (Nat.repr nowMs) 6) < 10 ^ 6 := by
    have := digitsVal_lt _ hn_dig
    rw [hn_len] at this
    exact this
  have hshift : pyStrToNat (strTakeRight (Nat.repr nowMs) 6) >>> 1 < 10 ^ 6 := by
    rw [Nat.shiftRight_one]
    omega
  have hr_repr_len :
      (Nat.repr (pyStrToNat (strTakeRight (Nat.repr nowMs) 6) >>> 1)).data.length ≤ 6 :=
    toDigits_length_le _ 6 (by omega) hshift
  have hr_data :
      (zfill (Nat.repr (pyStrToNat (strTakeRight (Nat.repr nowMs) 6) >>> 1)) 6).data =
        List.replicate
            (6 - (Nat.repr (pyStrToNat (strTakeRight (Nat.repr nowMs) 6) >>> 1)).data.length)
            '0' ++
          (Nat.repr (pyStrToNat (strTakeRight (Nat.repr nowMs) 6) >>> 1)).data := rfl
  have hr_len :
      (zfill (Nat.repr (pyStrToNat (strTakeRight (Nat.repr nowMs) 6) >>> 1)) 6).data.length = 6 := by
    rw [hr_data, List.length_append, List.length_replicate]
    omega
  have hr_dig :
      ∀ c ∈ (zfill (Nat.repr (pyStrToNat (strTakeRight (Nat.repr nowMs) 6) >>> 1)) 6).data,
        charDigit c ≤ 9 := by
    intro c hc
    rw [hr_data] at hc
    rcases List.mem_append.mp hc with h1 | h2
    · rw [List.eq_of_mem_replicate h1]
      decide
    · exact (toDigits_mem_digit _ c h2).2
  have hklen : api_key.data.length = api_key.length := rfl
  have hp1 := pickChars_total api_key (fun c => charDigit c)
    (strTakeRight (Nat.repr nowMs) 6).data
    (by
      intro c hc
      have hd := hn_dig c hc
      show charDigit c < api_key.data.length
      omega)
  have hp2 := pickChars_total api_key (fun c => charDigit c + 2)
    (zfill (Nat.repr (pyStrToNat (strTakeRight (Nat.repr nowMs) 6) >>> 1)) 6).data
    (by
      intro c hc
      have hd := hr_dig c hc
      show charDigit c + 2 < api_key.data.length
      omega)
  refine ⟨?_, rfl, ?_⟩
  · simp only [obfuscate_api_key, obfuscate_api_key_claim]
    rw [hp1, hp2]
  · show ((strTakeRight (Nat.repr nowMs) 6).data.map _ ++
      (zfill (Nat.repr (pyStrToNat (strTakeRight (Nat.repr nowMs) 6) >>> 1)) 6).data.map _).length = 12
    rw [List.length_append, List.length_map, List.length_map, hn_len, hr_len]

/-- C1 witness: the amended theorem evaluated at a realistic clock value
and a concrete 12-character api_key. -/
theorem c1_witness :
    obfuscate_api_key "abcdefghijkl" 1700000000000 =
      some (obfuscate_api_key_claim "abcdefghijkl" 1700000000000) :=
  (c1_obfuscate_matches_claim "abcdefghijkl" 1700000000000 (by decide) (by decide)).1

end Zscaler
